import Mathlib

/-
  Verification development for the chainpulse-backend event-to-alert pipeline.

  Shallow embedding of:
  - the whale window aggregator and processWhaleBuy
    (src/solana/solanaMomentumWatcher.js, second variant, and src/base/baseWatcher.js),
  - the alpha scorer (src/utils/alphaScorer.js),
  - the rate-limited alert queue (src/utils/alertQueue.js, src/services/telegram.js),
  - the housekeeping sweep (watchSolanaMomentum cleanup interval).

  Conventions: USD amounts are rationals, timestamps are naturals (milliseconds,
  JS Date.now()); JS Map is an association list with insert-order-preserving
  update (setEntry), JS Set is a list used only through membership.
-/

namespace ChainPulse

/-! Constants from src/solana/solanaMomentumWatcher.js (the fixed multi-DEX
    scanner variant, lines 386-406) and src/base/baseWatcher.js (lines 29-34). -/

def WINDOW_MS : Nat := 5 * 60 * 1000

def MIN_WHALES : Nat := 2

def BIG_SINGLE_BUY_USD : ℚ := 2000

def MIN_MCAP : ℚ := 10000

def MAX_MCAP : ℚ := 10000000

def MIN_LIQ : ℚ := 3000

def MAX_LIQ : ℚ := 300000

def SEEN_TX_TTL : Nat := 10 * 60 * 1000

def BASE_MIN_LIQ : ℚ := 5000

def BASE_MAX_LIQ : ℚ := 500000

def BASE_MIN_MCAP : ℚ := 10000

def BASE_MAX_MCAP : ℚ := 5000000

def MAX_TOKEN_AGE_HOURS : ℚ := 48

/-! Association-list model of a JS Map: `setEntry` updates an existing key in
    place (preserving insertion order) or appends a fresh key at the end,
    `getEntry` is keyed lookup. -/

def getEntry {α : Type} : List (String × α) → String → Option α
  | [], _ => none
  | (k', v') :: rest, k => if k' = k then some v' else getEntry rest k

def setEntry {α : Type} : List (String × α) → String → α → List (String × α)
  | [], k, v => [(k, v)]
  | (k', v') :: rest, k, v =>
      if k' = k then (k, v) :: rest else (k', v') :: setEntry rest k v

/-- Per-asset whale window entry: `whaleBuyers.set(mint, { buyers: new Map(),
firstSeen: Date.now(), totalVolume: 0 })`. `buyers` maps a wallet to its
cumulative USD in the current window. -/
structure WindowData where
  buyers : List (String × ℚ)
  firstSeen : Nat
  totalVolume : ℚ
  deriving Repr, DecidableEq

/-- The whale window aggregator step, embedded from the window-manipulation
part of `processWhaleBuy` (solanaMomentumWatcher.js lines 551-568, identically
baseWatcher.js lines 137-154): create the window anchored at `now` if absent,
reset it (clear buyers, zero volume, re-anchor at `now`) when
`now - firstSeen > WINDOW_MS`, then add `usd` cumulatively to the buyer's
entry and to `totalVolume`. -/
def recordBuy (w : Option WindowData) (buyer : String) (usd : ℚ) (now : Nat) :
    WindowData :=
  let d := w.getD { buyers := [], firstSeen := now, totalVolume := 0 }
  let d := if now - d.firstSeen > WINDOW_MS then
      { buyers := [], firstSeen := now, totalVolume := 0 } else d
  { buyers := setEntry d.buyers buyer ((getEntry d.buyers buyer).getD 0 + usd),
    firstSeen := d.firstSeen,
    totalVolume := d.totalVolume + usd }

/-! The alpha scorer (src/utils/alphaScorer.js `scoreToken`), split by the
    commented point blocks of the source. -/

def whalePts (whaleCount : Nat) : Nat :=
  if whaleCount ≥ 10 then 35
  else if whaleCount ≥ 5 then 28
  else if whaleCount ≥ 3 then 20
  else if whaleCount ≥ 2 then 12
  else 5

def liqPts (liquidity : ℚ) : Nat :=
  if liquidity ≥ 100000 then 30
  else if liquidity ≥ 50000 then 25
  else if liquidity ≥ 25000 then 20
  else if liquidity ≥ 10000 then 15
  else if liquidity ≥ 5000 then 10
  else 3

def mcapPts (marketCap : ℚ) : Nat :=
  if marketCap ≥ 1000000 then 20
  else if marketCap ≥ 500000 then 17
  else if marketCap ≥ 100000 then 14
  else if marketCap ≥ 50000 then 10
  else if marketCap ≥ 10000 then 5
  else 2

def sniperPts (sniperCount : Nat) : Nat :=
  if sniperCount = 0 then 15
  else if sniperCount ≤ 2 then 12
  else if sniperCount ≤ 5 then 8
  else if sniperCount ≤ 10 then 4
  else 0

def comboBonusWhaleLiq (whaleCount : Nat) (liquidity : ℚ) : Nat :=
  if whaleCount ≥ 5 ∧ liquidity ≥ 25000 then 5 else 0

def comboBonusEarlyGem (whaleCount : Nat) (marketCap : ℚ) : Nat :=
  if whaleCount ≥ 3 ∧ marketCap < 100000 ∧ marketCap > 10000 then 5 else 0

/-- `scoreToken` from src/utils/alphaScorer.js: four banded components plus two
combo bonuses, capped at 100 by `Math.min(score, 100)`. -/
def scoreToken (whaleCount : Nat) (liquidity marketCap : ℚ)
    (sniperCount : Nat) : Nat :=
  min (whalePts whaleCount + liqPts liquidity + mcapPts marketCap +
        sniperPts sniperCount +
        comboBonusWhaleLiq whaleCount liquidity +
        comboBonusEarlyGem whaleCount marketCap) 100

/-! Safety-provider checks. An external HTTP call is embedded as an
    `Except Unit response` argument: `Except.error ()` is a timeout / network
    error / non-2xx reply, caught by the JS `catch` branch. -/

/-- Fields of the rugcheck.xyz report summary the code reads
(solanaMomentumWatcher.js lines 489-490): each is behind optional chaining. -/
structure RugResp where
  score : Option ℚ
  risks : List String
  deriving Repr, DecidableEq

structure RugReport where
  score : Option ℚ
  isCritical : Bool
  risks : List String
  grade : String
  deriving Repr, DecidableEq

/-- Risk names treated as critical (solanaMomentumWatcher.js line 492). -/
def CRITICAL_RISK_NAMES : List String :=
  ["freeze_authority", "mint_authority", "honeypot"]

/-- `quickRugCheck` from solanaMomentumWatcher.js lines 483-503: on success,
score defaults to 0 (`res.data?.score || 0`), critical risks are filtered by
name, risks are truncated to 3, and the grade is banded by score; the `catch`
branch returns the neutral report with a null score and no critical flag. -/
def quickRugCheck : Except Unit RugResp → RugReport
  | Except.error _ =>
      { score := none, isCritical := false, risks := [], grade := "❓ Unknown" }
  | Except.ok r =>
      let score : ℚ := r.score.getD 0
      let criticalRisks := r.risks.filter (fun n => n ∈ CRITICAL_RISK_NAMES)
      { score := some score,
        isCritical := decide (0 < criticalRisks.length),
        risks := r.risks.take 3,
        grade := if score < 500 then "✅ Good"
                 else if score < 1000 then "⚠️ Caution" else "❌ Risky" }

/-- Fields of the honeypot.is reply the code reads (baseWatcher.js lines
122-126), each behind optional chaining. -/
structure HoneypotResp where
  isHoneypot : Option Bool
  buyTax : Option ℚ
  sellTax : Option ℚ
  deriving Repr, DecidableEq

structure HoneypotReport where
  isHoneypot : Bool
  buyTax : Option ℚ
  sellTax : Option ℚ
  deriving Repr, DecidableEq

/-- `quickHoneypotCheck` from baseWatcher.js lines 116-130: on success the
missing fields default (`|| false`, `|| 0`); the `catch` branch returns the
neutral report with `isHoneypot: false` and null taxes. -/
def quickHoneypotCheck : Except Unit HoneypotResp → HoneypotReport
  | Except.error _ => { isHoneypot := false, buyTax := none, sellTax := none }
  | Except.ok r =>
      { isHoneypot := r.isHoneypot.getD false,
        buyTax := some (r.buyTax.getD 0),
        sellTax := some (r.sellTax.getD 0) }

/-- JS comparison `t > c` where `t` may be `null`: `null` coerces to 0, so
`null > 10` is `false`. Used for `honeypot.buyTax > 10` (baseWatcher.js
line 175). -/
def taxGt (t : Option ℚ) (c : ℚ) : Bool :=
  match t with
  | none => false
  | some v => decide (v > c)

/-- The token metadata fields `processWhaleBuy` and the Base listener filter
on (`getTokenInfo` / `getTokenStats` results). The remaining fields (name,
symbol, price changes, buy/sell counts) feed only the alert text. -/
structure TokenInfo where
  liquidity : ℚ
  marketCap : ℚ
  ageHours : Option ℚ
  deriving Repr, DecidableEq

/-- Observable pipeline actions: adding an asset to the dedup set
(`alerted.add(mint)`) and handing an alert for that asset to `queueAlert`.
The alert text itself is built from the token metadata and is irrelevant to
the claims, so the enqueue action records the asset it concerns. -/
inductive Action where
  | dedupAdd (mint : String)
  | enqueue (mint : String)
  deriving Repr, DecidableEq

/-- Module-level mutable state of the Solana watcher that `processWhaleBuy`
touches: the `alerted` dedup set and the `whaleBuyers` window map. -/
structure SolState where
  alerted : List String
  whaleBuyers : List (String × WindowData)
  deriving Repr, DecidableEq

/-- The trigger policy (solanaMomentumWatcher.js lines 573-574):
`isBigSingleBuy || isMultiWhale`. -/
def trigSol (buyUsd : ℚ) (whaleCount : Nat) : Bool :=
  (decide (buyUsd ≥ BIG_SINGLE_BUY_USD) && decide (whaleCount = 1)) ||
    decide (whaleCount ≥ MIN_WHALES)

/-- The deeper evaluation of the Solana `processWhaleBuy` (lines 581-631):
token info lookup (`none` models the `!info` early return), then the Stage-A
market filters, then the rug check; on a full pass the mint is added to the
dedup set and the alert is enqueued, in that order. -/
def deepEvalSol (s : SolState) (mint : String) (info : Option TokenInfo)
    (rugResp : Except Unit RugResp) : SolState × List Action :=
  match info with
  | none => (s, [])
  | some i =>
      if i.liquidity < MIN_LIQ then (s, [])
      else if i.liquidity > MAX_LIQ then (s, [])
      else if i.marketCap > MAX_MCAP then (s, [])
      else
        let rug := quickRugCheck rugResp
        if rug.isCritical then (s, [])
        else ({ s with alerted := mint :: s.alerted },
              [Action.dedupAdd mint, Action.enqueue mint])

/-- `processWhaleBuy` from solanaMomentumWatcher.js lines 547-636: dedup
guard first, then the window update, then the trigger policy; only a firing
trigger reaches the deeper evaluation. -/
def processWhaleBuySol (s : SolState) (mint buyer : String) (buyUsd : ℚ)
    (now : Nat) (info : Option TokenInfo) (rugResp : Except Unit RugResp) :
    SolState × List Action :=
  if mint ∈ s.alerted then (s, [])
  else
    let d := recordBuy (getEntry s.whaleBuyers mint) buyer buyUsd now
    let s1 : SolState := { s with whaleBuyers := setEntry s.whaleBuyers mint d }
    if trigSol buyUsd d.buyers.length then deepEvalSol s1 mint info rugResp
    else (s1, [])

/-- Module-level mutable state of the Base watcher that `processWhaleBuy`
touches. -/
structure BaseState where
  alerted : List String
  whaleBuyers : List (String × WindowData)
  deriving Repr, DecidableEq

/-- The Base trigger policy (baseWatcher.js lines 163-164), thresholds
inlined in the source: `buyUsd >= 2000 && whaleCount === 1`,
`whaleCount >= 2`. -/
def trigBase (buyUsd : ℚ) (whaleCount : Nat) : Bool :=
  (decide (buyUsd ≥ 2000) && decide (whaleCount = 1)) || decide (whaleCount ≥ 2)

/-- `processWhaleBuy` from baseWatcher.js lines 133-226: dedup guard, window
update, trigger policy, honeypot check (absolute blockers: confirmed honeypot
or a tax above 10), then dedup add followed by enqueue. -/
def processWhaleBuyBase (s : BaseState) (token buyer : String) (buyUsd : ℚ)
    (now : Nat) (hpResp : Except Unit HoneypotResp) :
    BaseState × List Action :=
  if token ∈ s.alerted then (s, [])
  else
    let d := recordBuy (getEntry s.whaleBuyers token) buyer buyUsd now
    let s1 : BaseState :=
      { s with whaleBuyers := setEntry s.whaleBuyers token d }
    if trigBase buyUsd d.buyers.length then
      let honeypot := quickHoneypotCheck hpResp
      if honeypot.isHoneypot then (s1, [])
      else if taxGt honeypot.buyTax 10 || taxGt honeypot.sellTax 10 then
        (s1, [])
      else ({ s1 with alerted := token :: s1.alerted },
            [Action.dedupAdd token, Action.enqueue token])
    else (s1, [])

/-- The Stage-A market filter of the Base listener (baseWatcher.js lines
294-296), applied to `getTokenStats` output before `processWhaleBuy` is
called: each failing line is an early `return`. -/
def baseListenerPass (stats : TokenInfo) : Bool :=
  if stats.liquidity < BASE_MIN_LIQ || stats.liquidity > BASE_MAX_LIQ then false
  else if stats.marketCap < BASE_MIN_MCAP || stats.marketCap > BASE_MAX_MCAP
    then false
  else if (match stats.ageHours with
           | some a => decide (a > MAX_TOKEN_AGE_HOURS)
           | none => false) then false
  else true

/-- One incoming parsed swap for the Solana watcher, together with the
responses its external lookups would receive. -/
structure SolEvent where
  mint : String
  buyer : String
  usd : ℚ
  time : Nat
  info : Option TokenInfo
  rug : Except Unit RugResp

/-- Sequential processing of a list of events, accumulating the emitted
actions: the scan loop awaits each `processWhaleBuy` in turn
(solanaMomentumWatcher.js lines 660-667). -/
def runGen {S E : Type} (step : S → E → S × List Action) :
    S → List E → S × List Action
  | s, [] => (s, [])
  | s, e :: evs =>
      let r := step s e
      let rest := runGen step r.1 evs
      (rest.1, r.2 ++ rest.2)

def solStep (s : SolState) (e : SolEvent) : SolState × List Action :=
  processWhaleBuySol s e.mint e.buyer e.usd e.time e.info e.rug

def runSol (s : SolState) (evs : List SolEvent) : SolState × List Action :=
  runGen solStep s evs

/-- Number of `queueAlert` invocations for a given asset in an action list. -/
def enqueueCount (acts : List Action) (mint : String) : Nat :=
  (acts.filter (fun a => match a with
    | Action.enqueue m => decide (m = mint)
    | Action.dedupAdd _ => false)).length

/-- The housekeeping sweep body from `watchSolanaMomentum`
(solanaMomentumWatcher.js lines 701-719): expire `seenTx` entries past their
TTL, clear the `alerted` dedup set wholesale when its size exceeds 1000, and
delete `whaleBuyers` entries whose anchor is older than `WINDOW_MS * 3`. -/
def sweepSol (now : Nat) (seenTx : List (String × Nat))
    (alerted : List String) (whaleBuyers : List (String × WindowData)) :
    List (String × Nat) × List String × List (String × WindowData) :=
  let seenTx' := seenTx.filter (fun p => !decide (now - p.2 > SEEN_TX_TTL))
  let alerted' := if alerted.length > 1000 then [] else alerted
  let whaleBuyers' := whaleBuyers.filter
    (fun p => !decide (now - p.2.firstSeen > WINDOW_MS * 3))
  (seenTx', alerted', whaleBuyers')

/-! The rate-limited alert queue (src/utils/alertQueue.js) and the delivery
    transport (src/services/telegram.js). -/

/-- Minimum delay between deliveries: `setTimeout(r, 3000)` after each
`sendAlert` (alertQueue.js line 29). -/
def RATE_LIMIT_MS : Nat := 3000

/-- The raw transport call: `axios.post` to the Telegram API, which either
succeeds or raises. -/
def postTelegram (netOk : Bool) : Except String Unit :=
  if netOk then Except.ok () else Except.error "Telegram error"

/-- `sendAlert` from telegram.js lines 7-22: the `try`/`catch` logs a failure
and swallows it, so the function never propagates an error to the caller. -/
def sendAlert (netOk : Bool) : Except String Unit :=
  match postTelegram netOk with
  | Except.ok u => Except.ok u
  | Except.error _ => Except.ok ()

/-- State of the alert queue module: the pending `queue`, the `sending` drain
guard, the current time, the earliest instant the next delivery may start
(previous delivery time plus the 3000 ms wait), and ghost history fields: the
deliveries made (message, start time, transport outcome), the messages ever
enqueued in order, and counters of drain-loop starts and ends. -/
structure QState where
  queue : List String
  sending : Bool
  now : Nat
  nextAllowed : Nat
  delivered : List (String × Nat × Bool)
  enqueued : List String
  drainStarts : Nat
  drainEnds : Nat
  deriving Repr, DecidableEq

def initQ : QState :=
  { queue := [], sending := false, now := 0, nextAllowed := 0,
    delivered := [], enqueued := [], drainStarts := 0, drainEnds := 0 }

/-- Cooperative small-step semantics of alertQueue.js. `enqueue` is
`queueAlert`: push the message, then `processQueue()` runs synchronously up to
its first `await`, so the `sending` guard is tested and set atomically — a
re-entrant call with `sending` already true returns without starting a second
drain (line 18). `deliver` is one iteration of the drain loop: it requires the
guard to be held and the delay since the previous delivery to have elapsed
(the `await setTimeout(3000)` after the previous `sendAlert`); the transport
outcome is recorded but never inspected. `finish` is the loop exit resetting
`sending`. `tick` lets time pass. -/
inductive QStep : QState → QState → Prop where
  | tick (s : QState) (t : Nat) (ht : s.now ≤ t) :
      QStep s { s with now := t }
  | enqueue (s : QState) (m : String) :
      QStep s { s with
        queue := s.queue ++ [m],
        enqueued := s.enqueued ++ [m],
        sending := true,
        drainStarts := s.drainStarts + (if s.sending then 0 else 1) }
  | deliver (s : QState) (m : String) (rest : List String) (ok : Bool)
      (t : Nat) (hs : s.sending = true) (hq : s.queue = m :: rest)
      (hnow : s.now ≤ t) (hallow : s.nextAllowed ≤ t) :
      QStep s { s with
        queue := rest,
        delivered := s.delivered ++ [(m, t, ok)],
        now := t,
        nextAllowed := t + RATE_LIMIT_MS }
  | finish (s : QState) (hs : s.sending = true) (hq : s.queue = []) :
      QStep s { s with sending := false, drainEnds := s.drainEnds + 1 }

/-- Reachable queue states, starting from the module-load state. -/
def QReach (s : QState) : Prop :=
  Relation.ReflTransGen QStep initQ s

/-- The drain loop of `processQueue` (alertQueue.js lines 21-30) run to
completion with no re-entrant enqueues: shift the head, attempt delivery with
the next transport outcome, wait `RATE_LIMIT_MS`, repeat. Returns the
attempted deliveries (message, start time, outcome). -/
def drainRun : Nat → List String → List Bool → List (String × Nat × Bool)
  | _, [], _ => []
  | t, m :: rest, oks =>
      (m, t, oks.headD true) :: drainRun (t + RATE_LIMIT_MS) rest (oks.drop 1)

/-! Theorems. -/

lemma whalePts_lb (w : Nat) : 5 ≤ whalePts w := by
  unfold whalePts; split_ifs <;> omega

lemma liqPts_lb (l : ℚ) : 3 ≤ liqPts l := by
  unfold liqPts; split_ifs <;> omega

lemma mcapPts_lb (m : ℚ) : 2 ≤ mcapPts m := by
  unfold mcapPts; split_ifs <;> omega

/-- C5: the scorer is a pure function and
`score(whaleCount=10, liquidity=150000, marketCap=2000000, sniperCount=0)`
equals 100: the four banded components contribute 35 + 30 + 20 + 15, and the
final cap at 100 keeps the applicable combo bonus from raising the result
above 100. -/
theorem scoreToken_benchmark :
    scoreToken 10 150000 2000000 0 = 100
    ∧ whalePts 10 = 35 ∧ liqPts 150000 = 30 ∧ mcapPts 2000000 = 20
    ∧ sniperPts 0 = 15 := by
  refine ⟨?_, ?_, ?_, ?_, ?_⟩ <;>
    norm_num [scoreToken, whalePts, liqPts, mcapPts, sniperPts,
      comboBonusWhaleLiq, comboBonusEarlyGem]

/-- C10: for every input, `scoreToken` returns an integer between 10 and 100
inclusive: the whale, liquidity and market-cap bands have strictly positive
floors (5, 3 and 2), the sniper band floors at 0, and the final `Math.min`
caps the sum at 100, so despite the documented 0-100 range the score is never
below 10. -/
theorem scoreToken_bounds (w : Nat) (l m : ℚ) (sc : Nat) :
    10 ≤ scoreToken w l m sc ∧ scoreToken w l m sc ≤ 100 := by
  constructor
  · refine Nat.le_min.mpr ⟨?_, by norm_num⟩
    have h1 := whalePts_lb w
    have h2 := liqPts_lb l
    have h3 := mcapPts_lb m
    omega
  · exact Nat.min_le_right _ _

/-- C7: a timed-out or failed safety-provider call is caught and replaced by a
neutral default report — `quickHoneypotCheck` returns "not a honeypot, null
taxes", `quickRugCheck` returns "null score, no critical risk" — the null
taxes compare as not-above-the-cap, and an asset whose provider call failed
can still pass the cascade and be alerted on both watchers; the checks are
total functions, so no provider failure propagates an exception into the
event-processing path. -/
theorem provider_failure_neutral :
    quickHoneypotCheck (Except.error ())
      = { isHoneypot := false, buyTax := none, sellTax := none }
    ∧ quickRugCheck (Except.error ())
      = { score := none, isCritical := false, risks := [], grade := "❓ Unknown" }
    ∧ taxGt none 10 = false
    ∧ (processWhaleBuyBase { alerted := [], whaleBuyers := [] } "T" "B" 2500 0
        (Except.error ())).2 = [Action.dedupAdd "T", Action.enqueue "T"]
    ∧ (processWhaleBuySol { alerted := [], whaleBuyers := [] } "M" "B" 2500 0
        (some { liquidity := 50000, marketCap := 500000, ageHours := some 1 })
        (Except.error ())).2 = [Action.dedupAdd "M", Action.enqueue "M"] := by
  refine ⟨rfl, rfl, rfl, ?_, ?_⟩ <;> decide

/-! Association-list lemmas for the buyers map. -/

lemma getEntry_setEntry_self {α : Type} (l : List (String × α)) (k : String)
    (v : α) : getEntry (setEntry l k v) k = some v := by
  induction l with
  | nil => simp [setEntry, getEntry]
  | cons p rest ih =>
      obtain ⟨k', v'⟩ := p
      by_cases h : k' = k
      · simp [setEntry, getEntry, h]
      · simp [setEntry, getEntry, h, ih]

lemma mem_keys_setEntry {α : Type} (l : List (String × α)) (k a : String)
    (v : α) :
    a ∈ (setEntry l k v).map Prod.fst ↔ a = k ∨ a ∈ l.map Prod.fst := by
  induction l with
  | nil => simp [setEntry]
  | cons p rest ih =>
      obtain ⟨k', v'⟩ := p
      by_cases h : k' = k
      · subst h
        simp [setEntry]
      · simp only [setEntry, if_neg h, List.map_cons, List.mem_cons, ih]
        tauto

lemma nodup_keys_setEntry {α : Type} (l : List (String × α)) (k : String)
    (v : α) (h : (l.map Prod.fst).Nodup) :
    ((setEntry l k v).map Prod.fst).Nodup := by
  induction l with
  | nil => simp [setEntry]
  | cons p rest ih =>
      obtain ⟨k', v'⟩ := p
      simp only [List.map_cons, List.nodup_cons] at h
      by_cases hk : k' = k
      · subst hk
        simpa [setEntry] using h
      · simp only [setEntry, if_neg hk, List.map_cons, List.nodup_cons]
        exact ⟨by rw [mem_keys_setEntry]; tauto, ih h.2⟩

lemma toFinset_keys_setEntry {α : Type} (l : List (String × α)) (k : String)
    (v : α) :
    ((setEntry l k v).map Prod.fst).toFinset
      = insert k (l.map Prod.fst).toFinset := by
  ext a
  rw [List.mem_toFinset, Finset.mem_insert, mem_keys_setEntry,
    List.mem_toFinset]

/-! Branch characterizations of `recordBuy`. -/

lemma recordBuy_none (b : String) (u : ℚ) (now : Nat) :
    recordBuy none b u now
      = { buyers := [(b, u)], firstSeen := now, totalVolume := u } := by
  simp [recordBuy, getEntry, setEntry]

lemma recordBuy_reset (d : WindowData) (b : String) (u : ℚ) (now : Nat)
    (h : now - d.firstSeen > WINDOW_MS) :
    recordBuy (some d) b u now
      = { buyers := [(b, u)], firstSeen := now, totalVolume := u } := by
  simp [recordBuy, h, getEntry, setEntry]

lemma recordBuy_live (d : WindowData) (b : String) (u : ℚ) (now : Nat)
    (h : ¬ now - d.firstSeen > WINDOW_MS) :
    recordBuy (some d) b u now
      = { buyers := setEntry d.buyers b ((getEntry d.buyers b).getD 0 + u),
          firstSeen := d.firstSeen,
          totalVolume := d.totalVolume + u } := by
  simp [recordBuy, h]

/-- One qualifying buy for one asset, as the aggregator sees it. -/
structure BuyEvent where
  buyer : String
  usd : ℚ
  time : Nat

/-- The window state after a sequence of buys for one previously unseen
asset, folding `recordBuy` from the absent-window state. -/
def runWindow (evs : List BuyEvent) : Option WindowData :=
  evs.foldl (fun acc e => some (recordBuy acc e.buyer e.usd e.time)) none

lemma runWindow_from (t0 : Nat) :
    ∀ (evs : List BuyEvent) (d : WindowData),
      d.firstSeen = t0 →
      (d.buyers.map Prod.fst).Nodup →
      (∀ x ∈ evs, x.time - t0 ≤ WINDOW_MS) →
      ∃ d',
        evs.foldl (fun acc e => some (recordBuy acc e.buyer e.usd e.time))
            (some d) = some d'
        ∧ d'.firstSeen = t0
        ∧ (d'.buyers.map Prod.fst).Nodup
        ∧ (d'.buyers.map Prod.fst).toFinset
            = (d.buyers.map Prod.fst).toFinset
              ∪ (evs.map BuyEvent.buyer).toFinset
        ∧ d'.totalVolume = d.totalVolume + (evs.map BuyEvent.usd).sum := by
  intro evs
  induction evs with
  | nil =>
      intro d h1 h2 _
      exact ⟨d, rfl, h1, h2, by simp, by simp⟩
  | cons e evs ih =>
      intro d h1 h2 h3
      have hnr : ¬ e.time - d.firstSeen > WINDOW_MS := by
        rw [h1]
        have := h3 e (by simp)
        omega
      rw [List.foldl_cons]
      have hd1 := recordBuy_live d e.buyer e.usd e.time hnr
      obtain ⟨d', hfold, hfs, hnd, hfin, hvol⟩ :=
        ih (recordBuy (some d) e.buyer e.usd e.time)
          (by rw [hd1]; exact h1)
          (by rw [hd1]; exact nodup_keys_setEntry _ _ _ h2)
          (fun x hx => h3 x (by simp [hx]))
      refine ⟨d', hfold, hfs, hnd, ?_, ?_⟩
      · rw [hfin, hd1]
        simp only [toFinset_keys_setEntry, List.map_cons, List.toFinset_cons]
        rw [Finset.insert_union, Finset.union_insert]
      · rw [hvol, hd1]
        simp only [List.map_cons, List.sum_cons]
        ring

/-- C1: the whale window aggregator. A buy for an unseen asset creates a
window anchored at `now`; a buy arriving when `now - firstSeen > WINDOW_MS`
first resets the window (buyers cleared, volume zeroed, re-anchored at `now`)
and then records the buy, so after a reset caused by buyer C the window holds
exactly one buyer and C's amount; within an unexpired window the buy adds
cumulatively to the buyer's entry and to `totalVolume`; and for any buy
sequence within one window the buyer-map size — the reported unique-buyer
count — equals the number of distinct buyer ids recorded since the anchor,
and the volume is the sum of their amounts. -/
theorem recordBuy_window_spec (b : String) (u : ℚ) (now : Nat) :
    (recordBuy none b u now
      = { buyers := [(b, u)], firstSeen := now, totalVolume := u })
    ∧ (∀ d : WindowData, now - d.firstSeen > WINDOW_MS →
        recordBuy (some d) b u now
          = { buyers := [(b, u)], firstSeen := now, totalVolume := u })
    ∧ (∀ d : WindowData, ¬ now - d.firstSeen > WINDOW_MS →
        (recordBuy (some d) b u now).firstSeen = d.firstSeen
        ∧ getEntry (recordBuy (some d) b u now).buyers b
            = some ((getEntry d.buyers b).getD 0 + u)
        ∧ (recordBuy (some d) b u now).totalVolume = d.totalVolume + u)
    ∧ (∀ (e : BuyEvent) (evs : List BuyEvent),
        (∀ x ∈ e :: evs, x.time - e.time ≤ WINDOW_MS) →
        ∃ d', runWindow (e :: evs) = some d'
          ∧ d'.firstSeen = e.time
          ∧ d'.buyers.length = ((e :: evs).map BuyEvent.buyer).toFinset.card
          ∧ d'.totalVolume = ((e :: evs).map BuyEvent.usd).sum) := by
  refine ⟨recordBuy_none b u now, fun d h => recordBuy_reset d b u now h,
    fun d h => ?_, fun e evs htimes => ?_⟩
  · rw [recordBuy_live d b u now h]
    exact ⟨rfl, getEntry_setEntry_self _ _ _, rfl⟩
  · rw [runWindow, List.foldl_cons, recordBuy_none]
    obtain ⟨d', hfold, hfs, hnd, hfin, hvol⟩ :=
      runWindow_from e.time evs
        { buyers := [(e.buyer, e.usd)], firstSeen := e.time,
          totalVolume := e.usd }
        rfl (by simp) (fun x hx => htimes x (by simp [hx]))
    refine ⟨d', hfold, hfs, ?_, ?_⟩
    · have hlen : d'.buyers.length = (d'.buyers.map Prod.fst).length :=
        (List.length_map _ _).symm
      rw [hlen, ← List.toFinset_card_of_nodup hnd, hfin]
      simp [Finset.insert_eq]
    · rw [hvol]
      simp

/-- Witness for `recordBuy_window_spec`: a stale buy from C resets a window
previously holding buyer A and leaves exactly C's buy, and a three-buy
sequence (A, B, A again) inside one window reports 2 unique buyers and the
summed volume. -/
theorem recordBuy_window_spec_witness :
    (recordBuy
        (some { buyers := [("A", 700)], firstSeen := 0, totalVolume := 700 })
        "C" 500 300001
      = { buyers := [("C", 500)], firstSeen := 300001, totalVolume := 500 })
    ∧ ∃ d',
        runWindow [{ buyer := "A", usd := 500, time := 0 },
                   { buyer := "B", usd := 300, time := 60000 },
                   { buyer := "A", usd := 200, time := 300000 }] = some d'
        ∧ d'.firstSeen = 0
        ∧ d'.buyers.length
            = (([{ buyer := "A", usd := 500, time := 0 },
                 { buyer := "B", usd := 300, time := 60000 },
                 { buyer := "A", usd := 200, time := 300000 }] :
                  List BuyEvent).map BuyEvent.buyer).toFinset.card
        ∧ d'.totalVolume
            = (([{ buyer := "A", usd := 500, time := 0 },
                 { buyer := "B", usd := 300, time := 60000 },
                 { buyer := "A", usd := 200, time := 300000 }] :
                  List BuyEvent).map BuyEvent.usd).sum := by
  constructor
  · exact (recordBuy_window_spec "C" 500 300001).2.1 _ (by norm_num [WINDOW_MS])
  · exact (recordBuy_window_spec "x" 0 0).2.2.2
      { buyer := "A", usd := 500, time := 0 }
      [{ buyer := "B", usd := 300, time := 60000 },
       { buyer := "A", usd := 200, time := 300000 }]
      (by intro x hx; fin_cases hx <;> norm_num [WINDOW_MS])

/-! Case characterization of the two `processWhaleBuy` variants: every run
    either emits nothing and leaves the dedup set unchanged, or emits exactly
    `dedupAdd` followed by `enqueue` for its own asset and extends the dedup
    set with it — and the latter only from a state where the asset was not
    yet deduped. -/

lemma processWhaleBuySol_cases (s : SolState) (mint b : String) (u : ℚ)
    (t : Nat) (info : Option TokenInfo) (rug : Except Unit RugResp) :
    ((processWhaleBuySol s mint b u t info rug).2 = []
      ∧ (processWhaleBuySol s mint b u t info rug).1.alerted = s.alerted)
    ∨ ((processWhaleBuySol s mint b u t info rug).2
          = [Action.dedupAdd mint, Action.enqueue mint]
        ∧ (processWhaleBuySol s mint b u t info rug).1.alerted
            = mint :: s.alerted
        ∧ mint ∉ s.alerted) := by
  unfold processWhaleBuySol deepEvalSol
  by_cases h1 : mint ∈ s.alerted
  · left
    simp [h1]
  · simp only [if_neg h1]
    cases htrig :
        trigSol u (recordBuy (getEntry s.whaleBuyers mint) b u t).buyers.length
    · left
      simp [htrig]
    · simp only [htrig, if_true]
      cases info with
      | none => left; simp
      | some i =>
          simp only
          split_ifs with h2 h3 h4 h5
          · left; simp
          · left; simp
          · left; simp
          · left; simp
          · right; exact ⟨rfl, rfl, h1⟩

lemma processWhaleBuyBase_cases (s : BaseState) (tk b : String) (u : ℚ)
    (t : Nat) (hp : Except Unit HoneypotResp) :
    ((processWhaleBuyBase s tk b u t hp).2 = []
      ∧ (processWhaleBuyBase s tk b u t hp).1.alerted = s.alerted)
    ∨ ((processWhaleBuyBase s tk b u t hp).2
          = [Action.dedupAdd tk, Action.enqueue tk]
        ∧ (processWhaleBuyBase s tk b u t hp).1.alerted = tk :: s.alerted
        ∧ tk ∉ s.alerted) := by
  unfold processWhaleBuyBase
  by_cases h1 : tk ∈ s.alerted
  · left
    simp [h1]
  · simp only [if_neg h1]
    cases htrig :
        trigBase u (recordBuy (getEntry s.whaleBuyers tk) b u t).buyers.length
    · left
      simp [htrig]
    · simp only [htrig, if_true]
      split_ifs with h2 h3
      · left; simp
      · left; simp
      · right; exact ⟨rfl, rfl, h1⟩

lemma enqueueCount_append (a b : List Action) (mint : String) :
    enqueueCount (a ++ b) mint = enqueueCount a mint + enqueueCount b mint := by
  simp [enqueueCount, List.filter_append]

lemma enqueueCount_pair (m mint : String) :
    enqueueCount [Action.dedupAdd m, Action.enqueue m] mint
      = if m = mint then 1 else 0 := by
  by_cases h : m = mint <;> simp [enqueueCount, h]

/-- Per-event accounting: one `processWhaleBuy` call can spend the "may still
alert" budget of an asset at most once, and only by moving the asset into the
dedup set. -/
lemma sol_step_budget (mint : String) (s : SolState) (e : SolEvent) :
    enqueueCount (solStep s e).2 mint
      + (if mint ∈ (solStep s e).1.alerted then 0 else 1)
      ≤ (if mint ∈ s.alerted then 0 else 1) := by
  rcases processWhaleBuySol_cases s e.mint e.buyer e.usd e.time e.info e.rug
    with ⟨ha, hb⟩ | ⟨ha, hb, hc⟩
  · have h2 : enqueueCount (solStep s e).2 mint = 0 := by
      show enqueueCount
        (processWhaleBuySol s e.mint e.buyer e.usd e.time e.info e.rug).2 mint
          = 0
      rw [ha]; rfl
    have h3 : (solStep s e).1.alerted = s.alerted := hb
    rw [h2, h3]
    omega
  · have h2 : enqueueCount (solStep s e).2 mint = if e.mint = mint then 1 else 0 := by
      show enqueueCount
        (processWhaleBuySol s e.mint e.buyer e.usd e.time e.info e.rug).2 mint
          = _
      rw [ha, enqueueCount_pair]
    have h3 : (solStep s e).1.alerted = e.mint :: s.alerted := hb
    rw [h2, h3]
    by_cases hm : e.mint = mint
    · subst hm
      simp [hc]
    · have hmm : mint ≠ e.mint := fun h => hm h.symm
      have hiff : (mint ∈ e.mint :: s.alerted) ↔ mint ∈ s.alerted := by
        simp [List.mem_cons, hmm]
      simp only [if_neg hm, hiff]
      omega

/-- Folding the per-event budget bound over a whole event sequence. -/
lemma runGen_budget {S E : Type} (step : S → E → S × List Action)
    (alertedOf : S → List String) (mint : String)
    (hstep : ∀ s e, enqueueCount (step s e).2 mint
      + (if mint ∈ alertedOf (step s e).1 then 0 else 1)
      ≤ (if mint ∈ alertedOf s then 0 else 1)) :
    ∀ (evs : List E) (s : S),
      enqueueCount (runGen step s evs).2 mint
        + (if mint ∈ alertedOf (runGen step s evs).1 then 0 else 1)
        ≤ (if mint ∈ alertedOf s then 0 else 1) := by
  intro evs
  induction evs with
  | nil =>
      intro s
      simp [runGen, enqueueCount]
  | cons e evs ih =>
      intro s
      have h1 := hstep s e
      have h2 := ih (step s e).1
      simp only [runGen, enqueueCount_append]
      omega

/-- C2: dedup at-most-once under sequential processing. Every evaluation
checks the dedup set first and returns unchanged with no enqueue when the
asset is present; a successful pass emits exactly `dedupAdd` then `enqueue`
(the dedup add strictly precedes the `queueAlert` call) and puts the asset in
the dedup set; and over any finite event sequence processed sequentially,
`queueAlert` fires at most once per asset — never, if the asset was already
deduped at the start. Stated for the Solana watcher, with the per-call parts
also for the Base watcher. -/
theorem dedup_at_most_once :
    (∀ (s : SolState) (mint b : String) (u : ℚ) (t : Nat)
        (info : Option TokenInfo) (rug : Except Unit RugResp),
        mint ∈ s.alerted → processWhaleBuySol s mint b u t info rug = (s, []))
    ∧ (∀ (s : SolState) (mint b : String) (u : ℚ) (t : Nat)
        (info : Option TokenInfo) (rug : Except Unit RugResp),
        (processWhaleBuySol s mint b u t info rug).2 = []
        ∨ ((processWhaleBuySol s mint b u t info rug).2
              = [Action.dedupAdd mint, Action.enqueue mint]
            ∧ mint ∈ (processWhaleBuySol s mint b u t info rug).1.alerted))
    ∧ (∀ (s : BaseState) (tk b : String) (u : ℚ) (t : Nat)
        (hp : Except Unit HoneypotResp),
        tk ∈ s.alerted → processWhaleBuyBase s tk b u t hp = (s, []))
    ∧ (∀ (s : BaseState) (tk b : String) (u : ℚ) (t : Nat)
        (hp : Except Unit HoneypotResp),
        (processWhaleBuyBase s tk b u t hp).2 = []
        ∨ ((processWhaleBuyBase s tk b u t hp).2
              = [Action.dedupAdd tk, Action.enqueue tk]
            ∧ tk ∈ (processWhaleBuyBase s tk b u t hp).1.alerted))
    ∧ (∀ (mint : String) (s : SolState) (evs : List SolEvent),
        enqueueCount (runSol s evs).2 mint
          ≤ if mint ∈ s.alerted then 0 else 1) := by
  refine ⟨?_, ?_, ?_, ?_, ?_⟩
  · intro s mint b u t info rug h
    simp [processWhaleBuySol, h]
  · intro s mint b u t info rug
    rcases processWhaleBuySol_cases s mint b u t info rug
      with ⟨ha, _⟩ | ⟨ha, hb, _⟩
    · exact Or.inl ha
    · exact Or.inr ⟨ha, by rw [hb]; exact List.mem_cons_self _ _⟩
  · intro s tk b u t hp h
    simp [processWhaleBuyBase, h]
  · intro s tk b u t hp
    rcases processWhaleBuyBase_cases s tk b u t hp
      with ⟨ha, _⟩ | ⟨ha, hb, _⟩
    · exact Or.inl ha
    · exact Or.inr ⟨ha, by rw [hb]; exact List.mem_cons_self _ _⟩
  · intro mint s evs
    have h := runGen_budget solStep SolState.alerted mint
      (fun s' e => sol_step_budget mint s' e) evs s
    calc enqueueCount (runSol s evs).2 mint
        ≤ enqueueCount (runSol s evs).2 mint
            + (if mint ∈ (runGen solStep s evs).1.alerted then 0 else 1) :=
          Nat.le_add_right _ _
      _ ≤ if mint ∈ s.alerted then 0 else 1 := h

/-- Witness for `dedup_at_most_once`: an asset already in the dedup set is
rejected outright with no state change and no enqueue. -/
theorem dedup_at_most_once_witness :
    processWhaleBuySol { alerted := ["M"], whaleBuyers := [] } "M" "B" 5 0
        none (Except.error ())
      = ({ alerted := ["M"], whaleBuyers := [] }, []) :=
  dedup_at_most_once.1 { alerted := ["M"], whaleBuyers := [] } "M" "B" 5 0
    none (Except.error ()) (by decide)

/-- C3: the trigger policy. The deeper evaluation runs precisely when
`(buyUsd ≥ BIG_SINGLE_BUY_USD ∧ uniqueBuyers = 1) ∨ uniqueBuyers ≥
MIN_WHALES`; when neither holds the call returns with the just-recorded
window retained and is independent of the metadata and rug-check inputs (no
further lookup); and concretely a $2500 single buy triggers, a lone $10 buy
does not, and a later $10 buy from a second distinct buyer triggers the
multi-whale path. -/
theorem trigger_policy_spec :
    (∀ (u : ℚ) (c : Nat),
        trigSol u c = true ↔ ((u ≥ BIG_SINGLE_BUY_USD ∧ c = 1) ∨ MIN_WHALES ≤ c))
    ∧ (∀ (s : SolState) (mint b : String) (u : ℚ) (t : Nat)
        (info : Option TokenInfo) (rug : Except Unit RugResp),
        mint ∉ s.alerted →
        trigSol u (recordBuy (getEntry s.whaleBuyers mint) b u t).buyers.length
            = false →
        processWhaleBuySol s mint b u t info rug
          = ({ s with whaleBuyers :=
                (setEntry s.whaleBuyers mint
                  (recordBuy (getEntry s.whaleBuyers mint) b u t)) }, []))
    ∧ (∀ (s : SolState) (mint b : String) (u : ℚ) (t : Nat)
        (info : Option TokenInfo) (rug : Except Unit RugResp),
        mint ∉ s.alerted →
        trigSol u (recordBuy (getEntry s.whaleBuyers mint) b u t).buyers.length
            = true →
        processWhaleBuySol s mint b u t info rug
          = deepEvalSol
              { s with whaleBuyers :=
                (setEntry s.whaleBuyers mint
                  (recordBuy (getEntry s.whaleBuyers mint) b u t)) }
              mint info rug)
    ∧ trigSol 2500 1 = true ∧ trigSol 10 1 = false ∧ trigSol 10 2 = true := by
  refine ⟨?_, ?_, ?_, by decide, by decide, by decide⟩
  · intro u c
    simp [trigSol, BIG_SINGLE_BUY_USD, MIN_WHALES, and_comm]
  · intro s mint b u t info rug h1 h2
    simp [processWhaleBuySol, h1, h2]
  · intro s mint b u t info rug h1 h2
    simp [processWhaleBuySol, h1, h2]

def demoS1 : SolState := { alerted := [], whaleBuyers := [] }

def demoW1 : WindowData := recordBuy (getEntry demoS1.whaleBuyers "M") "A" 10 0

def demoS2 : SolState :=
  { demoS1 with whaleBuyers := setEntry demoS1.whaleBuyers "M" demoW1 }

def demoW2 : WindowData := recordBuy (getEntry demoS2.whaleBuyers "M") "B" 10 0

def demoS3 : SolState :=
  { demoS2 with whaleBuyers := setEntry demoS2.whaleBuyers "M" demoW2 }

/-- Witness for `trigger_policy_spec`: a lone $10 buy updates the window but
triggers nothing; a second $10 buy from a distinct buyer makes two unique
buyers and reaches the deeper evaluation. -/
theorem trigger_policy_spec_witness :
    processWhaleBuySol demoS1 "M" "A" 10 0 none (Except.error ())
        = (demoS2, [])
    ∧ processWhaleBuySol demoS2 "M" "B" 10 0 none (Except.error ())
        = deepEvalSol demoS3 "M" none (Except.error ()) := by
  constructor
  · exact trigger_policy_spec.2.1 demoS1 "M" "A" 10 0 none (Except.error ())
      (by decide) (by decide)
  · exact trigger_policy_spec.2.2.1 demoS2 "M" "B" 10 0 none (Except.error ())
      (by decide) (by decide)

/-- C4 counterexample: a token whose market cap (5000) is below `MIN_MCAP`
and whose age (100 h) far exceeds the Base watcher's age cap still produces an
alert on the Solana path — the Solana Stage-A filters check only
`liquidity < MIN_LIQ`, `liquidity > MAX_LIQ` and `marketCap > MAX_MCAP`, so
"Stage A short-circuits iff liquidity or market cap is outside its band or age
exceeds the cap" is false on this input. -/
theorem stage_a_claim_counterexample :
    ({ liquidity := 5000, marketCap := 5000, ageHours := some 100 } :
        TokenInfo).marketCap < MIN_MCAP
    ∧ (100 : ℚ) > MAX_TOKEN_AGE_HOURS
    ∧ (processWhaleBuySol { alerted := [], whaleBuyers := [] } "M" "B" 2500 0
          (some { liquidity := 5000, marketCap := 5000, ageHours := some 100 })
          (Except.error ())).2
        = [Action.dedupAdd "M", Action.enqueue "M"] := by
  refine ⟨by norm_num [MIN_MCAP], by norm_num [MAX_TOKEN_AGE_HOURS], by decide⟩

/-- C4 amended: when the trigger fires for a non-deduped asset the market
filters do run before the external safety call, but the two paths differ. On
the Solana path the deeper evaluation short-circuits with no alert — for
every rug-check outcome — precisely when `liquidity < MIN_LIQ`,
`liquidity > MAX_LIQ` or `marketCap > MAX_MCAP`; there is no lower
market-cap filter and no age filter there. On the Base path the listener
filter rejects precisely when liquidity is outside
`[BASE_MIN_LIQ, BASE_MAX_LIQ]`, market cap is outside
`[BASE_MIN_MCAP, BASE_MAX_MCAP]`, or a known age exceeds
`MAX_TOKEN_AGE_HOURS` — and it runs before the window update, not after the
trigger. -/
theorem stage_a_amended :
    (∀ (s : SolState) (mint : String) (i : TokenInfo),
        (∀ rug, deepEvalSol s mint (some i) rug = (s, []))
          ↔ (i.liquidity < MIN_LIQ ∨ i.liquidity > MAX_LIQ
              ∨ i.marketCap > MAX_MCAP))
    ∧ (∀ stats : TokenInfo,
        baseListenerPass stats = false
          ↔ (stats.liquidity < BASE_MIN_LIQ ∨ stats.liquidity > BASE_MAX_LIQ
              ∨ stats.marketCap < BASE_MIN_MCAP
              ∨ stats.marketCap > BASE_MAX_MCAP
              ∨ ∃ a, stats.ageHours = some a ∧ a > MAX_TOKEN_AGE_HOURS)) := by
  constructor
  · intro s mint i
    constructor
    · intro h
      by_contra hc
      push_neg at hc
      obtain ⟨h1, h2, h3⟩ := hc
      have h4 := h (Except.error ())
      simp only [deepEvalSol] at h4
      rw [if_neg (not_lt.mpr h1), if_neg (not_lt.mpr h2),
        if_neg (not_lt.mpr h3)] at h4
      simp [quickRugCheck] at h4
    · intro hc rug
      simp only [deepEvalSol]
      split_ifs with h1 h2 h3 h4
      · rfl
      · rfl
      · rfl
      · rfl
      · rcases hc with h | h | h
        · exact absurd h h1
        · exact absurd h h2
        · exact absurd h h3
  · intro stats
    simp only [baseListenerPass]
    split_ifs with h1 h2 h3
    · simp only [Bool.or_eq_true, decide_eq_true_eq] at h1
      exact iff_of_true rfl (by tauto)
    · simp only [Bool.or_eq_true, decide_eq_true_eq] at h2
      exact iff_of_true rfl (by tauto)
    · rcases hage : stats.ageHours with _ | a
      · rw [hage] at h3
        exact absurd h3 Bool.false_ne_true
      · rw [hage, decide_eq_true_eq] at h3
        exact iff_of_true rfl (Or.inr (Or.inr (Or.inr (Or.inr ⟨a, rfl, h3⟩))))

    · simp only [Bool.or_eq_true, decide_eq_true_eq, not_or] at h1 h2
      refine iff_of_false (by simp) ?_
      intro hc
      rcases hc with h | h | h | h | ⟨a, ha, hgt⟩
      · exact h1.1 h
      · exact h1.2 h
      · exact h2.1 h
      · exact h2.2 h
      · rw [ha, decide_eq_true_eq] at h3
        exact h3 hgt

/-- Witness for `stage_a_amended`: a token with liquidity 1000 (below both
minimum-liquidity bounds) short-circuits the Solana deep evaluation for every
rug outcome and fails the Base listener filter. -/
theorem stage_a_amended_witness :
    (∀ rug, deepEvalSol { alerted := [], whaleBuyers := [] } "M"
        (some { liquidity := 1000, marketCap := 50000, ageHours := none }) rug
      = ({ alerted := [], whaleBuyers := [] }, []))
    ∧ baseListenerPass
        { liquidity := 1000, marketCap := 50000, ageHours := none } = false := by
  constructor
  · exact (stage_a_amended.1 { alerted := [], whaleBuyers := [] } "M"
      { liquidity := 1000, marketCap := 50000, ageHours := none }).mpr
      (Or.inl (by norm_num [MIN_LIQ]))
  · exact (stage_a_amended.2
      { liquidity := 1000, marketCap := 50000, ageHours := none }).mpr
      (Or.inl (by norm_num [BASE_MIN_LIQ]))

/-- A window whose anchor is at time 0 but whose latest buy is at time
`WINDOW_MS` (300000), recorded without a reset since `300000 - 0` does not
exceed `WINDOW_MS`. -/
def staleW : WindowData :=
  recordBuy (some (recordBuy none "A" 500 0)) "B" 400 300000

lemma staleW_eq :
    staleW = { buyers := [("A", 500), ("B", 400)], firstSeen := 0,
               totalVolume := 900 } := by
  have hAB : ¬ (("A" : String) = "B") := by decide
  rw [staleW, recordBuy_none, recordBuy_live _ _ _ _ (by norm_num [WINDOW_MS])]
  simp [getEntry, setEntry, hAB]
  norm_num

/-- C9 counterexample: at a sweep at `t = 900001` the asset's most recent buy
(time 300000) is only `600001 ≤ 3 × WINDOW_MS` ms old — it is not idle beyond
`3 × WINDOW_MS` — yet the sweep evicts the entry, because eviction compares
against the window anchor `firstSeen = 0`, not against the last recorded buy.
So "evicts iff idle (no recorded buy) for more than 3 × WINDOW_DURATION" is
false. -/
theorem sweep_idle_counterexample :
    getEntry staleW.buyers "B" = some 400
    ∧ staleW.firstSeen = 0
    ∧ ¬ 900001 - 300000 > WINDOW_MS * 3
    ∧ (sweepSol 900001 [] [] [("M", staleW)]).2.2 = [] := by
  refine ⟨?_, ?_, by norm_num [WINDOW_MS], ?_⟩
  · rw [staleW_eq]
    simp [getEntry]
  · rw [staleW_eq]
  · simp [sweepSol, staleW_eq, WINDOW_MS]

/-- C9 amended: a housekeeping sweep keeps an AssetWindow entry iff
`now - firstSeen` does not exceed `3 × WINDOW_MS`, where `firstSeen` is the
window anchor (set at creation or reset, not advanced by buys inside the
window) — so an entry can be evicted after as little as just over
`2 × WINDOW_MS` without a buy; and the dedup set is cleared wholesale exactly
when its size exceeds 1000, and is returned untouched otherwise (no
individual removals). -/
theorem sweep_amended :
    (∀ (now : Nat) (seenTx : List (String × Nat)) (alerted : List String)
        (wb : List (String × WindowData)) (p : String × WindowData),
        p ∈ (sweepSol now seenTx alerted wb).2.2
          ↔ p ∈ wb ∧ ¬ now - p.2.firstSeen > WINDOW_MS * 3)
    ∧ (∀ (now : Nat) (seenTx : List (String × Nat)) (alerted : List String)
        (wb : List (String × WindowData)),
        alerted.length > 1000 → (sweepSol now seenTx alerted wb).2.1 = [])
    ∧ (∀ (now : Nat) (seenTx : List (String × Nat)) (alerted : List String)
        (wb : List (String × WindowData)),
        ¬ alerted.length > 1000 →
          (sweepSol now seenTx alerted wb).2.1 = alerted) := by
  refine ⟨?_, ?_, ?_⟩
  · intro now st al wb p
    simp [sweepSol, List.mem_filter]
  · intro now st al wb h
    simp [sweepSol, h]
  · intro now st al wb h
    simp [sweepSol, h]

/-- Witness for `sweep_amended`: a dedup set of size 1 survives a sweep
untouched, and the membership characterization evaluated on the concrete
stale window from the counterexample setup. -/
theorem sweep_amended_witness :
    (sweepSol 900001 [] ["M"] []).2.1 = ["M"]
    ∧ (("M", staleW) ∈ (sweepSol 900001 [] [] [("M", staleW)]).2.2
        ↔ ("M", staleW) ∈ [("M", staleW)]
          ∧ ¬ 900001 - staleW.firstSeen > WINDOW_MS * 3) := by
  constructor
  · exact sweep_amended.2.2 900001 [] ["M"] [] (by decide)
  · exact sweep_amended.1 900001 [] [] [("M", staleW)] ("M", staleW)

/-! Invariants of the alert-queue state machine. -/

/-- Full inductive invariant: (1) the enqueue history splits into deliveries
already made, in order, followed by the pending queue; (2) the drain guard is
only ever dropped on an empty queue; (3) consecutive delivery start times are
at least `RATE_LIMIT_MS` apart; (4) the last delivery plus the delay bounds
`nextAllowed`; (5) at most one drain loop is ever active. -/
def QInvFull (s : QState) : Prop :=
  s.enqueued = s.delivered.map (fun d => d.1) ++ s.queue
  ∧ (s.sending = false → s.queue = [])
  ∧ List.Chain' (fun a b : String × Nat × Bool =>
      a.2.1 + RATE_LIMIT_MS ≤ b.2.1) s.delivered
  ∧ (∀ x ∈ s.delivered.getLast?, x.2.1 + RATE_LIMIT_MS ≤ s.nextAllowed)
  ∧ s.drainStarts = s.drainEnds + (if s.sending then 1 else 0)

lemma qinv_init : QInvFull initQ := by
  simp [QInvFull, initQ]

lemma qinv_step (s s' : QState) (h : QStep s s') (hs : QInvFull s) :
    QInvFull s' := by
  obtain ⟨h1, h2, h3, h4, h5⟩ := hs
  cases h with
  | tick t ht => exact ⟨h1, h2, h3, h4, h5⟩
  | enqueue m =>
      refine ⟨?_, ?_, h3, h4, ?_⟩
      · show s.enqueued ++ [m]
          = s.delivered.map (fun d => d.1) ++ (s.queue ++ [m])
        rw [h1, List.append_assoc]
      · intro hf
        exact absurd hf (by simp)
      · show s.drainStarts + (if s.sending then 0 else 1)
          = s.drainEnds + (if true then 1 else 0)
        cases hsend : s.sending <;> rw [hsend] at h5 <;> simp_all
  | deliver m rest ok t hsend hq hnow hallow =>
      refine ⟨?_, ?_, ?_, ?_, h5⟩
      · show s.enqueued
          = (s.delivered ++ [(m, t, ok)]).map (fun d => d.1) ++ rest
        rw [h1, hq, List.map_append]
        simp
      · intro hf
        exact Bool.noConfusion (hsend.symm.trans hf)
      · refine List.chain'_append.mpr ⟨h3, List.chain'_singleton _, ?_⟩
        intro x hx y hy
        simp only [List.head?_cons, Option.mem_some_iff] at hy
        subst hy
        exact le_trans (h4 x hx) hallow
      · intro x hx
        have hlast : (s.delivered ++ [(m, t, ok)]).getLast? = some (m, t, ok) := by
          simp
        have hx2 : x ∈ (s.delivered ++ [(m, t, ok)]).getLast? := hx
        rw [hlast, Option.mem_some_iff] at hx2
        subst hx2
        exact le_refl _
  | finish hsend hq =>
      refine ⟨h1, fun _ => hq, h3, h4, ?_⟩
      show s.drainStarts = s.drainEnds + 1 + (if false then 1 else 0)
      rw [h5, hsend]
      simp

lemma qinv_reach (s : QState) (h : QReach s) : QInvFull s := by
  unfold QReach at h
  induction h with
  | refl => exact qinv_init
  | tail hsteps hstep ih => exact qinv_step _ _ hstep ih

/-- C6: in every reachable queue state, the enqueue history equals the
deliveries made so far (in FIFO order) followed by the pending queue — so
deliveries happen in enqueue order; consecutive delivery start times are at
least `RATE_LIMIT_MS` (3000 ms) apart regardless of enqueue burstiness; and
the number of drain loops ever started exceeds the number finished by exactly
the one active drain when `sending` is set and zero otherwise — re-entrant
`queueAlert` calls never start a second concurrent drain. -/
theorem alert_queue_fifo_rate (s : QState) (h : QReach s) :
    s.enqueued = s.delivered.map (fun d => d.1) ++ s.queue
    ∧ List.Chain' (fun a b : String × Nat × Bool =>
        a.2.1 + RATE_LIMIT_MS ≤ b.2.1) s.delivered
    ∧ s.drainStarts = s.drainEnds + (if s.sending then 1 else 0) := by
  obtain ⟨h1, _, h3, _, h5⟩ := qinv_reach s h
  exact ⟨h1, h3, h5⟩

def qA : QState :=
  { queue := ["a"], sending := true, now := 0, nextAllowed := 0,
    delivered := [], enqueued := ["a"], drainStarts := 1, drainEnds := 0 }

def qB : QState :=
  { queue := ["a", "b"], sending := true, now := 0, nextAllowed := 0,
    delivered := [], enqueued := ["a", "b"], drainStarts := 1, drainEnds := 0 }

def qC : QState :=
  { queue := ["b"], sending := true, now := 0, nextAllowed := 3000,
    delivered := [("a", 0, true)], enqueued := ["a", "b"],
    drainStarts := 1, drainEnds := 0 }

def qD : QState :=
  { queue := [], sending := true, now := 3000, nextAllowed := 6000,
    delivered := [("a", 0, true), ("b", 3000, true)],
    enqueued := ["a", "b"], drainStarts := 1, drainEnds := 0 }

def qE : QState :=
  { queue := [], sending := false, now := 3000, nextAllowed := 6000,
    delivered := [("a", 0, true), ("b", 3000, true)],
    enqueued := ["a", "b"], drainStarts := 1, drainEnds := 1 }

/-- A concrete execution: two alerts enqueued in a burst, drained by a single
loop with the second delivery 3000 ms after the first. -/
lemma qreach_example : QReach qE := by
  have s1 : QStep initQ qA := QStep.enqueue initQ "a"
  have s2 : QStep qA qB := QStep.enqueue qA "b"
  have s3 : QStep qB qC :=
    QStep.deliver qB "a" ["b"] true 0 rfl rfl (le_refl 0) (le_refl 0)
  have s4 : QStep qC qD :=
    QStep.deliver qC "b" [] true 3000 rfl rfl (by decide) (le_refl 3000)
  have s5 : QStep qD qE := QStep.finish qD rfl rfl
  exact Relation.ReflTransGen.tail
    (Relation.ReflTransGen.tail
      (Relation.ReflTransGen.tail
        (Relation.ReflTransGen.tail
          (Relation.ReflTransGen.tail Relation.ReflTransGen.refl s1) s2) s3)
      s4) s5

/-- Witness for `alert_queue_fifo_rate`: the invariant evaluated on the
concrete two-alert burst execution. -/
theorem alert_queue_fifo_rate_witness :
    qE.enqueued = qE.delivered.map (fun d => d.1) ++ qE.queue
    ∧ List.Chain' (fun a b : String × Nat × Bool =>
        a.2.1 + RATE_LIMIT_MS ≤ b.2.1) qE.delivered
    ∧ qE.drainStarts = qE.drainEnds + (if qE.sending then 1 else 0) :=
  alert_queue_fifo_rate qE qreach_example

/-- C8: delivery failures are absorbed. `sendAlert` returns normally for both
transport outcomes (`queueAlert` never sees an exception); a full drain
attempts every queued message exactly once in order — a failed message is
dropped, never retried, and never blocks the messages behind it, which go out
after the fixed delay; and in every reachable state the `sending` flag is
down only when the queue has fully drained. -/
theorem delivery_failure_resilience :
    (∀ b, sendAlert b = Except.ok ())
    ∧ (∀ (t : Nat) (q : List String) (oks : List Bool),
        (drainRun t q oks).map (fun d => d.1) = q)
    ∧ (∀ (t : Nat) (q : List String) (oks : List Bool),
        List.Chain' (fun a b : String × Nat × Bool =>
          a.2.1 + RATE_LIMIT_MS ≤ b.2.1) (drainRun t q oks))
    ∧ (∀ s : QState, QReach s → s.sending = false → s.queue = []) := by
  refine ⟨?_, ?_, ?_, ?_⟩
  · intro b
    cases b <;> rfl
  · intro t q oks
    induction q generalizing t oks with
    | nil => simp [drainRun]
    | cons m rest ih => simp [drainRun, ih]
  · intro t q oks
    induction q generalizing t oks with
    | nil => simp [drainRun]
    | cons m rest ih =>
        cases rest with
        | nil => simp [drainRun]
        | cons m2 r2 =>
            simp only [drainRun, List.chain'_cons]
            exact ⟨le_refl _, ih (t + RATE_LIMIT_MS) (oks.drop 1)⟩
  · intro s h hf
    exact (qinv_reach s h).2.1 hf

/-- Witness for `delivery_failure_resilience`: the drained end state of the
concrete execution has an empty queue, and a failed transport call still
returns normally. -/
theorem delivery_failure_resilience_witness :
    qE.queue = [] ∧ sendAlert false = Except.ok () :=
  ⟨delivery_failure_resilience.2.2.2 qE qreach_example rfl,
   delivery_failure_resilience.1 false⟩

end ChainPulse
